import Mathlib

/-!
Verification of the `at` scheduler (API service, worker, sweeper) against its
specification.  The Go source is shallowly embedded: the `scheduled_tasks`
table becomes a `List Task`, each SQL statement becomes a pure function on
that list, and the concurrent per-task lifecycle becomes a small-step
relation.  Timestamps are integers (seconds); `NOW()` is threaded as a `now`
parameter; the `FOR UPDATE SKIP LOCKED` clause is modelled by a `locked` set
of row ids excluded from the selection; the `updated_at` trigger of
`sql/ddl.sql` is applied on every row update.
-/

namespace AT

/-- Task status, per the CHECK constraint of `sql/ddl.sql`:
status IN (pending, processing, completed, failed, cancelled). -/
inductive Status where
  | pending
  | processing
  | completed
  | failed
  | cancelled
deriving DecidableEq, Repr

/-- A row of `scheduled_tasks` (see `sql/ddl.sql` and `models.ScheduledTask`).
`error_message` and `completed_at` are nullable columns. -/
structure Task where
  id : Int
  execute_at : Int
  task_type : String
  payload : String
  status : Status
  attempts : Int
  max_attempts : Int
  error_message : Option String
  created_at : Int
  updated_at : Int
  completed_at : Option Int
deriving DecidableEq, Repr

/-- `models.TaskResult`: outcome of one execution, fed back to settlement. -/
structure TaskResult where
  TaskID : Int
  Success : Bool
  ErrorMessage : String
deriving DecidableEq, Repr

/-! ## Row-level updates, one per SQL UPDATE statement in the source.
Each sets `updated_at := now`, the effect of the
`trigger_update_scheduled_tasks_updated_at` trigger in `sql/ddl.sql`. -/

/-- The per-row effect of the lease update in `processBatch`
(worker.go): `SET status = processing, attempts = attempts + 1`. -/
def leaseUpdate (t : Task) (now : Int) : Task :=
  { t with status := .processing, attempts := t.attempts + 1, updated_at := now }

/-- The success branch of `handleTaskResult`:
`SET status = completed, completed_at = NOW(), error_message = $2`. -/
def settleCompleted (t : Task) (now : Int) (msg : String) : Task :=
  { t with status := .completed, completed_at := some now,
           error_message := some msg, updated_at := now }

/-- The exhausted-failure branch of `handleTaskResult`:
`SET status = failed, error_message = $2, completed_at = NOW()`. -/
def settleFailed (t : Task) (now : Int) (msg : String) : Task :=
  { t with status := .failed, error_message := some msg,
           completed_at := some now, updated_at := now }

/-- The retry branch of `handleTaskResult`:
`SET status = pending, error_message = $2`. -/
def settleRetry (t : Task) (now : Int) (msg : String) : Task :=
  { t with status := .pending, error_message := some msg, updated_at := now }

/-- The per-row effect of the first sweeper query in `cleanStuckTasks`
(cleaner.go): `SET status = pending, attempts = attempts + 1`. -/
def sweepRestoreUpdate (t : Task) (now : Int) : Task :=
  { t with status := .pending, attempts := t.attempts + 1, updated_at := now }

/-- The per-row effect of the second sweeper query in `cleanStuckTasks`:
`SET status = failed, error_message = 'Max attempts reached',
completed_at = NOW()`. -/
def sweepFailUpdate (t : Task) (now : Int) : Task :=
  { t with status := .failed, error_message := some "Max attempts reached",
           completed_at := some now, updated_at := now }

/-- The per-row effect of the conditional update in `CancelTask`
(task_service.go): `SET status = cancelled`. -/
def cancelUpdate (t : Task) (now : Int) : Task :=
  { t with status := .cancelled, updated_at := now }

/-! ## Sweeper (`cleanStuckTasks`, cleaner.go)

Two sequential UPDATE queries over the whole table.  A row is selected when
`status = processing AND updated_at < NOW() - stuckTimeout` and it is not
locked by a concurrent transaction (`FOR UPDATE SKIP LOCKED`). -/

/-- Selection condition of the first sweeper query: stuck in `processing`
with budget remaining (`attempts < max_attempts`). -/
def sweepRestoreCond (now stuck : Int) (locked : List Int) (t : Task) : Prop :=
  t.status = .processing ∧ t.updated_at < now - stuck ∧
    t.attempts < t.max_attempts ∧ locked.contains t.id = false

/-- Selection condition of the second sweeper query: stuck in `processing`
with budget exhausted (`attempts >= max_attempts`). -/
def sweepFailCond (now stuck : Int) (locked : List Int) (t : Task) : Prop :=
  t.status = .processing ∧ t.updated_at < now - stuck ∧
    t.max_attempts ≤ t.attempts ∧ locked.contains t.id = false

instance (now stuck : Int) (locked : List Int) (t : Task) :
    Decidable (sweepRestoreCond now stuck locked t) := by
  unfold sweepRestoreCond; infer_instance

instance (now stuck : Int) (locked : List Int) (t : Task) :
    Decidable (sweepFailCond now stuck locked t) := by
  unfold sweepFailCond; infer_instance

/-- What the first sweeper query does to one row. -/
def sweepRestoreRow (now stuck : Int) (locked : List Int) (t : Task) : Task :=
  if sweepRestoreCond now stuck locked t then sweepRestoreUpdate t now else t

/-- What the second sweeper query does to one row. -/
def sweepFailRow (now stuck : Int) (locked : List Int) (t : Task) : Task :=
  if sweepFailCond now stuck locked t then sweepFailUpdate t now else t

/-- One pass of `cleanStuckTasks` (cleaner.go): first the restore UPDATE,
then, over the resulting table, the fail UPDATE. -/
def cleanStuckTasks (db : List Task) (now stuck : Int) (locked : List Int) :
    List Task :=
  (db.map (sweepRestoreRow now stuck locked)).map (sweepFailRow now stuck locked)

/-- The composed per-row effect of one sweeper pass. -/
def cleanRow (now stuck : Int) (locked : List Int) (t : Task) : Task :=
  sweepFailRow now stuck locked (sweepRestoreRow now stuck locked t)

/-! ## Worker lease (`processBatch`, worker.go)

`SELECT ... WHERE status = pending AND execute_at <= NOW()
ORDER BY execute_at ASC LIMIT $1 FOR UPDATE SKIP LOCKED`,
then in the same transaction
`UPDATE ... SET status = processing, attempts = attempts + 1
WHERE id IN (<selected ids>)`. -/

/-- Ordering used by the lease SELECT: `ORDER BY execute_at ASC`. -/
def leExec (a b : Task) : Prop := a.execute_at ≤ b.execute_at

instance : DecidableRel leExec := fun a b => by unfold leExec; infer_instance

instance : IsTotal Task leExec := ⟨fun a b => Int.le_total a.execute_at b.execute_at⟩

instance : IsTrans Task leExec := ⟨fun _ _ _ h1 h2 => le_trans h1 h2⟩

/-- Row condition of the lease SELECT: due and pending, skipping rows
locked by concurrent transactions. -/
def duePred (now : Int) (locked : List Int) (t : Task) : Prop :=
  t.status = .pending ∧ t.execute_at ≤ now ∧ locked.contains t.id = false

instance (now : Int) (locked : List Int) (t : Task) :
    Decidable (duePred now locked t) := by
  unfold duePred; infer_instance

/-- The batch selected by the lease SELECT of `processBatch`: due pending
unlocked rows, ordered by `execute_at` ascending, at most `b` of them. -/
def selectDueBatch (db : List Task) (now : Int) (b : Nat) (locked : List Int) :
    List Task :=
  (List.insertionSort leExec (db.filter fun t => decide (duePred now locked t))).take b

/-- `processBatch` (worker.go): lease the due batch, returning the updated
table and the leased rows as read (before the status update). -/
def processBatch (db : List Task) (now : Int) (b : Nat) (locked : List Int) :
    List Task × List Task :=
  let selected := selectDueBatch db now b locked
  let ids := selected.map (·.id)
  (db.map fun t => if ids.contains t.id then leaseUpdate t now else t, selected)

/-! ## Settlement (`handleTaskResult`, worker.go)

On success: single unconditional UPDATE by id to `completed`.  On failure:
re-read `attempts, max_attempts` from the store
(`SELECT attempts, max_attempts FROM scheduled_tasks WHERE id = $1`),
then UPDATE by id to `failed` when `attempts >= max_attempts`, else to
`pending`.  None of the three UPDATEs checks the current status. -/

def handleTaskResult (db : List Task) (now : Int) (r : TaskResult) : List Task :=
  if r.Success then
    db.map fun t => if t.id = r.TaskID then settleCompleted t now r.ErrorMessage else t
  else
    match db.find? (fun t => t.id == r.TaskID) with
    | none => db
    | some t0 =>
      if t0.max_attempts ≤ t0.attempts then
        db.map fun t => if t.id = r.TaskID then settleFailed t now r.ErrorMessage else t
      else
        db.map fun t => if t.id = r.TaskID then settleRetry t now r.ErrorMessage else t

/-! ## Admission service (`task_service.go`, `create_task handler`) -/

/-- Errors the service exposes (`ErrTaskNotFound`, `ErrInvalidExecuteTime`). -/
inductive ServiceError where
  | invalidExecuteTime
  | taskNotFound
deriving DecidableEq, Repr

/-- `models.CreateTaskRequest`: body of POST /api/v1/tasks.  A missing
`max_attempts` decodes to the zero value 0. -/
structure CreateTaskRequest where
  ExecuteAt : Int
  TaskType : String
  Payload : String
  MaxAttempts : Int
deriving DecidableEq, Repr

/-- `CreateTask` (task_service.go): reject when
`req.ExecuteAt.Before(time.Now())` (strict), default `max_attempts` to 3
when the request gives 0, then INSERT a row taking the remaining column
defaults of `sql/ddl.sql` (status pending, attempts 0, null error and
completion, created/updated now). -/
def createTask (req : CreateTaskRequest) (now newId : Int) :
    Except ServiceError Task :=
  if req.ExecuteAt < now then
    .error .invalidExecuteTime
  else
    let ma := if req.MaxAttempts = 0 then 3 else req.MaxAttempts
    .ok { id := newId, execute_at := req.ExecuteAt, task_type := req.TaskType,
          payload := req.Payload, status := .pending, attempts := 0,
          max_attempts := ma, error_message := none, created_at := now,
          updated_at := now, completed_at := none }

/-- `CreateTask` seen at the store: on rejection the table is untouched,
on acceptance exactly the new row is inserted. -/
def createTaskDB (db : List Task) (req : CreateTaskRequest) (now newId : Int) :
    List Task × Except ServiceError Task :=
  match createTask req now newId with
  | .error e => (db, .error e)
  | .ok t => (db ++ [t], .ok t)

/-- Condition of the `CancelTask` UPDATE (task_service.go):
`WHERE id = $1 AND status IN (pending, processing)`. -/
def cancellable (id : Int) (t : Task) : Prop :=
  t.id = id ∧ (t.status = .pending ∨ t.status = .processing)

instance (id : Int) (t : Task) : Decidable (cancellable id t) := by
  unfold cancellable; infer_instance

/-- `CancelTask` (task_service.go): conditional UPDATE returning the updated
row; `sql.ErrNoRows` (no row matched) surfaces as `taskNotFound` and leaves
the table unchanged. -/
def cancelTask (db : List Task) (id : Int) (now : Int) :
    List Task × Except ServiceError Task :=
  match db.find? (fun t => decide (cancellable id t)) with
  | none => (db, .error .taskNotFound)
  | some t =>
      (db.map fun u => if cancellable id u then cancelUpdate u now else u,
       .ok (cancelUpdate t now))

/-! ## HTTP callback executor (`executeHTTPCallback`, executor.go)

The payload unmarshal, the JSON marshal of `data`, the request build, the
transport round-trip and the body read are effectful steps whose outcomes
are inputs of the embedding; the routing between them follows the Go code
branch for branch, in source order. -/

/-- Parsed callback payload fields used by the control flow
(`url`, `method`; `data` only flows into the marshalled body). -/
structure CallbackPayload where
  url : String
  method : String
deriving DecidableEq, Repr

/-- Outcome of building, sending and reading one HTTP request. -/
inductive HttpOutcome where
  /-- `http.NewRequestWithContext` returned an error. -/
  | buildError (msg : String)
  /-- `httpClient.Do` returned an error. -/
  | transportError (msg : String)
  /-- `io.ReadAll(resp.Body)` returned an error. -/
  | readError (statusCode : Nat) (msg : String)
  /-- A response with its status code and fully read body. -/
  | response (statusCode : Nat) (body : String)
deriving DecidableEq, Repr

/-- The method allow-list of `executeHTTPCallback`. -/
def allowedMethods (m : String) : Bool :=
  m == "POST" || m == "PUT" || m == "GET" || m == "DELETE" || m == "PATCH"

/-- `executeHTTPCallback` (executor.go).  `parsed` is the outcome of
`json.Unmarshal` on the task payload, `marshalled` the outcome of
`json.Marshal(payload.Data)`, and `send method url body` the outcome of
building, executing and reading the HTTP request. -/
def executeHTTPCallback (taskId : Int)
    (parsed : Except String CallbackPayload)
    (marshalled : Except String String)
    (send : String → String → String → HttpOutcome) : TaskResult :=
  match parsed with
  | .error e => ⟨taskId, false, "failed to parse payload: " ++ e⟩
  | .ok p =>
    let method := if p.method = "" then "POST" else p.method
    if allowedMethods method then
      match marshalled with
      | .error e => ⟨taskId, false, "failed to marshal data: " ++ e⟩
      | .ok jsonData =>
        match send method p.url jsonData with
        | .buildError e => ⟨taskId, false, "failed to create request: " ++ e⟩
        | .transportError e => ⟨taskId, false, "failed to execute request: " ++ e⟩
        | .readError _ e => ⟨taskId, false, "failed to read response body: " ++ e⟩
        | .response code body =>
          if code < 200 ∨ 300 ≤ code then
            ⟨taskId, false,
             "HTTP request failed with status: " ++ toString code ++ ", body: " ++ body⟩
          else ⟨taskId, true, body⟩
    else
      ⟨taskId, false,
       "invalid method '" ++ method ++
         "', allowed: POST, PUT, GET, DELETE, PATCH"⟩

/-! ## Per-task interleaving semantics

A single task under the concurrent operations that can touch its row:
worker lease, worker settlement, sweeper recovery, cancel.  The failure
branch of `handleTaskResult` is NOT transactional: it first runs
`SELECT attempts, max_attempts ... WHERE id = $1` and decides retry versus
failed from the values read, and only afterwards runs a separate UPDATE
`WHERE id = $1` with no status or attempts guard, so the decided write can
land after further sweeps and leases have moved the row.  The model
therefore splits that settlement into a read/decision step and an
unguarded apply step: `held` counts leased executions whose settlement has
not yet begun, and `retryWrites`/`failWrites` count decided settlement
UPDATEs that have not yet been applied (a crashed worker can abandon
either stage).  The success branch is a single UPDATE with a
store-independent decision, so it stays one unguarded step.  Timing
(`execute_at` due, stuck timeout) is left nondeterministic, which only
enlarges the set of reachable states. -/

structure WState where
  status : Status
  attempts : Int
  maxAttempts : Int
  held : Nat
  retryWrites : Nat
  failWrites : Nat
deriving DecidableEq, Repr

/-- One store transition of a single task row. -/
inductive Step : WState → WState → Prop where
  /-- `processBatch` leases the row: pending → processing, attempts + 1. -/
  | lease (s : WState) : s.status = .pending →
      Step s ⟨.processing, s.attempts + 1, s.maxAttempts, s.held + 1,
              s.retryWrites, s.failWrites⟩
  /-- `handleTaskResult`, success branch: one UPDATE by id with no status
  guard, landing at an arbitrary later time. -/
  | settleSuccess (s : WState) : 1 ≤ s.held →
      Step s ⟨.completed, s.attempts, s.maxAttempts, s.held - 1,
              s.retryWrites, s.failWrites⟩
  /-- Failure settlement, first statement: the SELECT reads the current
  `attempts`/`max_attempts`; with budget left it decides a retry UPDATE. -/
  | settleReadRetry (s : WState) : 1 ≤ s.held → s.attempts < s.maxAttempts →
      Step s ⟨s.status, s.attempts, s.maxAttempts, s.held - 1,
              s.retryWrites + 1, s.failWrites⟩
  /-- Failure settlement, first statement: the SELECT reads the current
  `attempts`/`max_attempts`; with budget exhausted it decides a failed
  UPDATE. -/
  | settleReadFail (s : WState) : 1 ≤ s.held → s.maxAttempts ≤ s.attempts →
      Step s ⟨s.status, s.attempts, s.maxAttempts, s.held - 1,
              s.retryWrites, s.failWrites + 1⟩
  /-- Failure settlement, second statement: a decided retry UPDATE lands —
  `SET status = pending WHERE id = $1`, no status or attempts guard. -/
  | applyRetry (s : WState) : 1 ≤ s.retryWrites →
      Step s ⟨.pending, s.attempts, s.maxAttempts, s.held,
              s.retryWrites - 1, s.failWrites⟩
  /-- Failure settlement, second statement: a decided failed UPDATE lands —
  `SET status = failed WHERE id = $1`, no status or attempts guard. -/
  | applyFail (s : WState) : 1 ≤ s.failWrites →
      Step s ⟨.failed, s.attempts, s.maxAttempts, s.held,
              s.retryWrites, s.failWrites - 1⟩
  /-- `cleanStuckTasks`, first query: stuck processing row with budget left
  returns to pending with attempts + 1. -/
  | sweepRestore (s : WState) : s.status = .processing →
      s.attempts < s.maxAttempts →
      Step s ⟨.pending, s.attempts + 1, s.maxAttempts, s.held,
              s.retryWrites, s.failWrites⟩
  /-- `cleanStuckTasks`, second query: stuck processing row out of budget
  becomes failed. -/
  | sweepFail (s : WState) : s.status = .processing →
      s.maxAttempts ≤ s.attempts →
      Step s ⟨.failed, s.attempts, s.maxAttempts, s.held,
              s.retryWrites, s.failWrites⟩
  /-- `CancelTask`: pending or processing row becomes cancelled. -/
  | cancel (s : WState) : s.status = .pending ∨ s.status = .processing →
      Step s ⟨.cancelled, s.attempts, s.maxAttempts, s.held,
              s.retryWrites, s.failWrites⟩
  /-- A worker crashes before its settlement begins: the lease is lost. -/
  | crash (s : WState) : 1 ≤ s.held →
      Step s ⟨s.status, s.attempts, s.maxAttempts, s.held - 1,
              s.retryWrites, s.failWrites⟩
  /-- A worker crashes between the settlement SELECT and its decided retry
  UPDATE: the write is lost. -/
  | crashRetry (s : WState) : 1 ≤ s.retryWrites →
      Step s ⟨s.status, s.attempts, s.maxAttempts, s.held,
              s.retryWrites - 1, s.failWrites⟩
  /-- A worker crashes between the settlement SELECT and its decided failed
  UPDATE: the write is lost. -/
  | crashFail (s : WState) : 1 ≤ s.failWrites →
      Step s ⟨s.status, s.attempts, s.maxAttempts, s.held,
              s.retryWrites, s.failWrites - 1⟩

/-- A freshly admitted task: pending with zero attempts, no worker
activity outstanding. -/
def initState (ma : Int) : WState := ⟨.pending, 0, ma, 0, 0, 0⟩

/-- Reachability from the admitted state under any interleaving. -/
def ReachableFrom (ma : Int) (s : WState) : Prop :=
  Relation.ReflTransGen Step (initState ma) s

/-- Statuses the spec calls terminal. -/
def isTerminal (st : Status) : Prop :=
  st = .completed ∨ st = .failed ∨ st = .cancelled

/-- Indicator used by the attempts-bound invariant: 1 on `pending`. -/
def pendingBit : Status → Int
  | .pending => 1
  | _ => 0

/-- `pendingBit` is 0 or 1. -/
theorem pendingBit_bounds (st : Status) : 0 ≤ pendingBit st ∧ pendingBit st ≤ 1 := by
  cases st <;> exact ⟨by decide, by decide⟩

/-! ## Concrete rows used by counterexamples and witnesses -/

/-- A crash-orphaned row: `processing`, stale `updated_at`, budget left. -/
def sampleStuck : Task :=
  ⟨1, 0, "http_callback", "p", .processing, 0, 3, none, 0, 0, none⟩

/-! ## Claim C1 — sweeper pass -/

/-- Claim C1 (amended): one sweeper pass sends every unlocked row with
`status = processing` and `updated_at < now - T_stuck` either back to
`pending` with `attempts` incremented by 1 (when `attempts < max_attempts`)
or to `failed` with `error_message = "Max attempts reached"` and
`completed_at = now()` (when `attempts >= max_attempts`); the table
transformation is exactly the per-row map `cleanRow`. -/
theorem c1_sweep_transitions (db : List Task) (now stuck : Int) (locked : List Int) :
    cleanStuckTasks db now stuck locked = db.map (cleanRow now stuck locked) ∧
    ∀ t : Task, t.status = .processing → t.updated_at < now - stuck →
      locked.contains t.id = false →
      ((t.attempts < t.max_attempts →
          cleanRow now stuck locked t = sweepRestoreUpdate t now ∧
          (cleanRow now stuck locked t).status = .pending ∧
          (cleanRow now stuck locked t).attempts = t.attempts + 1) ∧
       (t.max_attempts ≤ t.attempts →
          cleanRow now stuck locked t = sweepFailUpdate t now ∧
          (cleanRow now stuck locked t).status = .failed ∧
          (cleanRow now stuck locked t).error_message = some "Max attempts reached" ∧
          (cleanRow now stuck locked t).completed_at = some now)) := by
  constructor
  · simp only [cleanStuckTasks, cleanRow, List.map_map]
    rfl
  · intro t h1 h2 h3
    refine ⟨fun h4 => ?_, fun h4 => ?_⟩
    · have hc : sweepRestoreCond now stuck locked t := ⟨h1, h2, h4, h3⟩
      have hnf : ¬ sweepFailCond now stuck locked (sweepRestoreUpdate t now) := by
        intro hf
        unfold sweepFailCond sweepRestoreUpdate at hf
        simp at hf
      have key : cleanRow now stuck locked t = sweepRestoreUpdate t now := by
        unfold cleanRow sweepRestoreRow sweepFailRow
        rw [if_pos hc, if_neg hnf]
      exact ⟨key, by rw [key]; rfl, by rw [key]; rfl⟩
    · have hnc : ¬ sweepRestoreCond now stuck locked t := by
        intro hc
        exact absurd hc.2.2.1 (not_lt.mpr h4)
      have hc : sweepFailCond now stuck locked t := ⟨h1, h2, h4, h3⟩
      have key : cleanRow now stuck locked t = sweepFailUpdate t now := by
        unfold cleanRow sweepRestoreRow sweepFailRow
        rw [if_neg hnc, if_pos hc]
      exact ⟨key, by rw [key]; rfl, by rw [key]; rfl, by rw [key]; rfl⟩

/-- Claim C1, counterexample to the claim as stated: a stuck `processing`
row with `attempts = 0 < max_attempts = 3` is returned to `pending` by one
sweeper pass with `attempts = 1`, not with attempts left unchanged — the
first sweeper UPDATE sets `attempts = attempts + 1`. -/
theorem c1_counterexample :
    sampleStuck.status = .processing ∧
    sampleStuck.updated_at < 100 - 5 ∧
    sampleStuck.attempts = 0 ∧
    sampleStuck.attempts < sampleStuck.max_attempts ∧
    (cleanStuckTasks [sampleStuck] 100 5 []).map Task.status = [.pending] ∧
    (cleanStuckTasks [sampleStuck] 100 5 []).map Task.attempts = [1] := by
  decide

/-! ## Claim C3 — lease-due-batch -/

/-- Claim C3: one worker poll selects at most `b` rows satisfying
`status = pending AND execute_at <= now()`, skipping locked rows, ordered by
`execute_at` ascending; in the same transaction each selected row gets
`status = processing` and `attempts + 1` (all other columns untouched by the
lease), and rows outside the selection are not modified. -/
theorem c3_lease_batch (db : List Task) (now : Int) (b : Nat) (locked : List Int) :
    (selectDueBatch db now b locked).length ≤ b ∧
    (∀ t ∈ selectDueBatch db now b locked,
       t ∈ db ∧ t.status = .pending ∧ t.execute_at ≤ now ∧
       locked.contains t.id = false) ∧
    List.Sorted leExec (selectDueBatch db now b locked) ∧
    (processBatch db now b locked).2 = selectDueBatch db now b locked ∧
    (processBatch db now b locked).1 =
      db.map (fun t =>
        if ((selectDueBatch db now b locked).map (·.id)).contains t.id
        then leaseUpdate t now else t) ∧
    (∀ t : Task, (leaseUpdate t now).status = .processing ∧
       (leaseUpdate t now).attempts = t.attempts + 1 ∧
       (leaseUpdate t now).id = t.id ∧
       (leaseUpdate t now).execute_at = t.execute_at ∧
       (leaseUpdate t now).task_type = t.task_type ∧
       (leaseUpdate t now).payload = t.payload ∧
       (leaseUpdate t now).max_attempts = t.max_attempts ∧
       (leaseUpdate t now).error_message = t.error_message ∧
       (leaseUpdate t now).created_at = t.created_at ∧
       (leaseUpdate t now).completed_at = t.completed_at) ∧
    (∀ t : Task, ((selectDueBatch db now b locked).map (·.id)).contains t.id = false →
       (if ((selectDueBatch db now b locked).map (·.id)).contains t.id
        then leaseUpdate t now else t) = t) := by
  refine ⟨List.length_take_le b _, fun t ht => ?_, ?_, rfl, rfl,
          fun t => ⟨rfl, rfl, rfl, rfl, rfl, rfl, rfl, rfl, rfl, rfl⟩,
          fun t ht => by rw [ht]; rfl⟩
  · have h1 : t ∈ List.insertionSort leExec
        (db.filter fun u => decide (duePred now locked u)) :=
      List.mem_of_mem_take ht
    have h2 : t ∈ db.filter fun u => decide (duePred now locked u) :=
      (List.mem_insertionSort leExec).mp h1
    have h3 := List.mem_filter.mp h2
    have h4 : duePred now locked t := of_decide_eq_true h3.2
    exact ⟨h3.1, h4.1, h4.2.1, h4.2.2⟩
  · exact List.Pairwise.sublist (List.take_sublist b _)
      (List.sorted_insertionSort leExec _)

/-! ## Claims C4, C5 — settlement -/

/-- Claim C4: for a failed execution result, settlement re-reads
`attempts`/`max_attempts` from the store row (not from the stale in-memory
task); with `attempts >= max_attempts` the row becomes `failed` with
`completed_at = now()` and the diagnostic as `error_message`, otherwise it
becomes `pending` with the diagnostic, its `execute_at` (and
`completed_at`) untouched. -/
theorem c4_settle_failure (db : List Task) (now : Int) (r : TaskResult) (t0 : Task) :
    (r.Success = false →
      db.find? (fun t => t.id == r.TaskID) = some t0 →
      ((t0.max_attempts ≤ t0.attempts →
          handleTaskResult db now r =
            db.map fun t =>
              if t.id = r.TaskID then settleFailed t now r.ErrorMessage else t) ∧
       (t0.attempts < t0.max_attempts →
          handleTaskResult db now r =
            db.map fun t =>
              if t.id = r.TaskID then settleRetry t now r.ErrorMessage else t))) ∧
    (∀ (u : Task) (msg : String),
       (settleFailed u now msg).status = .failed ∧
       (settleFailed u now msg).completed_at = some now ∧
       (settleFailed u now msg).error_message = some msg) ∧
    (∀ (u : Task) (msg : String),
       (settleRetry u now msg).status = .pending ∧
       (settleRetry u now msg).error_message = some msg ∧
       (settleRetry u now msg).execute_at = u.execute_at ∧
       (settleRetry u now msg).completed_at = u.completed_at) := by
  refine ⟨fun hS hfind => ⟨fun hge => ?_, fun hlt => ?_⟩,
          fun u msg => ⟨rfl, rfl, rfl⟩, fun u msg => ⟨rfl, rfl, rfl, rfl⟩⟩
  · unfold handleTaskResult
    rw [hS, hfind]
    simp only [Bool.false_eq_true, if_false]
    rw [if_pos hge]
  · unfold handleTaskResult
    rw [hS, hfind]
    simp only [Bool.false_eq_true, if_false]
    rw [if_neg (not_le.mpr hlt)]

/-- A row whose retry budget is exhausted: `attempts = max_attempts = 3`. -/
def sampleExhausted : Task :=
  ⟨1, 0, "email", "p", .processing, 3, 3, none, 0, 0, none⟩

/-- Claim C4, witness: settling a failed result against a store row with
`attempts = max_attempts = 3` marks exactly that row failed. -/
theorem c4_settle_failure_witness :
    handleTaskResult [sampleExhausted] 50 ⟨1, false, "boom"⟩ =
      [settleFailed sampleExhausted 50 "boom"] := by
  have h := ((c4_settle_failure [sampleExhausted] 50 ⟨1, false, "boom"⟩
      sampleExhausted).1 rfl (by decide)).1 (by decide)
  rw [h]
  decide

/-- Claim C5: for a successful execution result, settlement marks the row
`completed` with `completed_at = now()` and `error_message` the
executor-returned text; and the `http_callback` executor returns success
carrying the response body as that text exactly on a 2xx response. -/
theorem c5_settle_success (db : List Task) (now : Int) (r : TaskResult) :
    (r.Success = true →
       handleTaskResult db now r =
         db.map fun t =>
           if t.id = r.TaskID then settleCompleted t now r.ErrorMessage else t) ∧
    (∀ (u : Task) (msg : String),
       (settleCompleted u now msg).status = .completed ∧
       (settleCompleted u now msg).completed_at = some now ∧
       (settleCompleted u now msg).error_message = some msg) ∧
    (∀ (taskId : Int) (p : CallbackPayload) (jsonData : String)
       (send : String → String → String → HttpOutcome) (code : Nat) (body : String),
       allowedMethods (if p.method = "" then "POST" else p.method) = true →
       send (if p.method = "" then "POST" else p.method) p.url jsonData =
         .response code body →
       200 ≤ code → code < 300 →
       executeHTTPCallback taskId (.ok p) (.ok jsonData) send =
         ⟨taskId, true, body⟩) := by
  refine ⟨fun hS => ?_, fun u msg => ⟨rfl, rfl, rfl⟩,
          fun taskId p jsonData send code body hallow hsend h200 h300 => ?_⟩
  · unfold handleTaskResult
    rw [hS]
    simp only [if_true]
  · simp only [executeHTTPCallback, hallow, hsend, if_true]
    rw [if_neg (by omega)]

/-- Claim C5, witness: a successful result settles the concrete row to
`completed`, and a 200 response with body "OK" yields a success result
carrying "OK". -/
theorem c5_settle_success_witness :
    handleTaskResult [sampleExhausted] 50 ⟨1, true, "OK"⟩ =
      [settleCompleted sampleExhausted 50 "OK"] ∧
    executeHTTPCallback 1 (.ok ⟨"http://cb", "GET"⟩) (.ok "d")
      (fun _ _ _ => .response 200 "OK") = ⟨1, true, "OK"⟩ := by
  constructor
  · have h := (c5_settle_success [sampleExhausted] 50 ⟨1, true, "OK"⟩).1 rfl
    rw [h]
    decide
  · exact (c5_settle_success [] 0 ⟨1, true, "OK"⟩).2.2 1 ⟨"http://cb", "GET"⟩ "d"
      (fun _ _ _ => .response 200 "OK") 200 "OK" (by decide) rfl (by decide) (by decide)

/-! ## Claim C9 — http_callback executor -/

/-- Claim C9: the http_callback executor defaults an absent method to POST,
fails on any method outside POST/PUT/GET/DELETE/PATCH, treats the callback
as a success exactly when the response status lies in [200,300), and on a
non-2xx response fails with
"HTTP request failed with status: <code>, body: <body>"; the response body
is read and carried in both the success and the failure outcome. -/
theorem c9_http_callback (taskId : Int) (p : CallbackPayload)
    (jsonData : String) (marshalled : Except String String)
    (send : String → String → String → HttpOutcome) :
    (p.method = "" →
       executeHTTPCallback taskId (.ok p) marshalled send =
         executeHTTPCallback taskId (.ok ⟨p.url, "POST"⟩) marshalled send) ∧
    (allowedMethods (if p.method = "" then "POST" else p.method) = false →
       executeHTTPCallback taskId (.ok p) marshalled send =
         ⟨taskId, false,
          "invalid method '" ++ (if p.method = "" then "POST" else p.method) ++
            "', allowed: POST, PUT, GET, DELETE, PATCH"⟩) ∧
    (∀ (code : Nat) (body : String),
       allowedMethods (if p.method = "" then "POST" else p.method) = true →
       send (if p.method = "" then "POST" else p.method) p.url jsonData =
         .response code body →
       (((executeHTTPCallback taskId (.ok p) (.ok jsonData) send).Success = true) ↔
          (200 ≤ code ∧ code < 300)) ∧
       (code < 200 ∨ 300 ≤ code →
          executeHTTPCallback taskId (.ok p) (.ok jsonData) send =
            ⟨taskId, false,
             "HTTP request failed with status: " ++ toString code ++
               ", body: " ++ body⟩) ∧
       (200 ≤ code → code < 300 →
          executeHTTPCallback taskId (.ok p) (.ok jsonData) send =
            ⟨taskId, true, body⟩)) := by
  refine ⟨fun hm => ?_, fun hbad => ?_, fun code body hallow hsend => ⟨?_, ?_, ?_⟩⟩
  · simp [executeHTTPCallback, hm]
  · simp only [executeHTTPCallback, hbad, Bool.false_eq_true, if_false]
  · by_cases hc : code < 200 ∨ 300 ≤ code
    · simp only [executeHTTPCallback, hallow, hsend, if_true, if_pos hc]
      simp only [Bool.false_eq_true, false_iff]
      omega
    · simp only [executeHTTPCallback, hallow, hsend, if_true, if_neg hc]
      simp only [true_iff]
      omega
  · intro hc
    simp only [executeHTTPCallback, hallow, hsend, if_true, if_pos hc]
  · intro h200 h300
    simp only [executeHTTPCallback, hallow, hsend, if_true]
    rw [if_neg (by omega)]

/-- Claim C9, witness: at concrete inputs — an empty method behaves as
POST, the method "BREW" is rejected, and a 500 response with body "err"
yields the formatted failure message. -/
theorem c9_http_callback_witness :
    executeHTTPCallback 1 (.ok ⟨"http://cb", ""⟩) (.ok "d")
        (fun _ _ _ => .response 200 "OK") =
      executeHTTPCallback 1 (.ok ⟨"http://cb", "POST"⟩) (.ok "d")
        (fun _ _ _ => .response 200 "OK") ∧
    executeHTTPCallback 1 (.ok ⟨"http://cb", "BREW"⟩) (.ok "d")
        (fun _ _ _ => .response 200 "OK") =
      ⟨1, false, "invalid method 'BREW', allowed: POST, PUT, GET, DELETE, PATCH"⟩ ∧
    executeHTTPCallback 1 (.ok ⟨"http://cb", "GET"⟩) (.ok "d")
        (fun _ _ _ => .response 500 "err") =
      ⟨1, false, "HTTP request failed with status: 500, body: err"⟩ := by
  refine ⟨(c9_http_callback 1 ⟨"http://cb", ""⟩ "d" (.ok "d")
            (fun _ _ _ => .response 200 "OK")).1 rfl, ?_, ?_⟩
  · have h := (c9_http_callback 1 ⟨"http://cb", "BREW"⟩ "d" (.ok "d")
        (fun _ _ _ => .response 200 "OK")).2.1 (by decide)
    simpa using h
  · have h := ((c9_http_callback 1 ⟨"http://cb", "GET"⟩ "d" (.ok "d")
        (fun _ _ _ => .response 500 "err")).2.2 500 "err" (by decide) rfl).2.1
        (by omega)
    simpa using h

/-! ## Claim C7 — task creation -/

/-- Claim C7 (amended): `CreateTask` rejects with `invalidExecuteTime`
exactly when `execute_at` is strictly before `now()` (the Go check is
`req.ExecuteAt.Before(time.Now())`), writing nothing to the store; on
acceptance it inserts a single `pending` row whose `max_attempts` is 3 when
the request gives 0 (the decoded zero value of an absent field) and the
requested value otherwise. -/
theorem c7_create (db : List Task) (req : CreateTaskRequest) (now newId : Int) :
    (req.ExecuteAt < now →
       createTask req now newId = .error .invalidExecuteTime ∧
       createTaskDB db req now newId = (db, .error .invalidExecuteTime)) ∧
    (now ≤ req.ExecuteAt →
       createTask req now newId =
         .ok { id := newId, execute_at := req.ExecuteAt, task_type := req.TaskType,
               payload := req.Payload, status := .pending, attempts := 0,
               max_attempts := if req.MaxAttempts = 0 then 3 else req.MaxAttempts,
               error_message := none, created_at := now, updated_at := now,
               completed_at := none } ∧
       (createTaskDB db req now newId).1 =
         db ++ [{ id := newId, execute_at := req.ExecuteAt,
                  task_type := req.TaskType, payload := req.Payload,
                  status := .pending, attempts := 0,
                  max_attempts := if req.MaxAttempts = 0 then 3 else req.MaxAttempts,
                  error_message := none, created_at := now, updated_at := now,
                  completed_at := none }] ∧
       (req.MaxAttempts = 0 →
          (if req.MaxAttempts = 0 then 3 else req.MaxAttempts) = 3) ∧
       (req.MaxAttempts ≠ 0 →
          (if req.MaxAttempts = 0 then 3 else req.MaxAttempts) = req.MaxAttempts)) := by
  constructor
  · intro hlt
    have h : createTask req now newId = .error .invalidExecuteTime := by
      unfold createTask
      rw [if_pos hlt]
    exact ⟨h, by unfold createTaskDB; rw [h]⟩
  · intro hge
    have h : createTask req now newId =
        .ok { id := newId, execute_at := req.ExecuteAt, task_type := req.TaskType,
              payload := req.Payload, status := .pending, attempts := 0,
              max_attempts := if req.MaxAttempts = 0 then 3 else req.MaxAttempts,
              error_message := none, created_at := now, updated_at := now,
              completed_at := none } := by
      unfold createTask
      rw [if_neg (not_lt.mpr hge)]
    refine ⟨h, by unfold createTaskDB; rw [h], fun h0 => by rw [if_pos h0],
            fun h0 => by rw [if_neg h0]⟩

/-- Claim C7, counterexample to the claim as stated: at the boundary
`execute_at = now()` the claim demands rejection (it says
"execute_at <= now()"), but `CreateTask` uses the strict `Before` check and
accepts, inserting a pending row. -/
theorem c7_counterexample :
    (5 : Int) ≤ 5 ∧
    createTask ⟨5, "t", "p", 0⟩ 5 1 =
      .ok ⟨1, 5, "t", "p", .pending, 0, 3, none, 5, 5, none⟩ ∧
    createTask ⟨5, "t", "p", 0⟩ 5 1 ≠ .error .invalidExecuteTime ∧
    (createTaskDB [] ⟨5, "t", "p", 0⟩ 5 1).1 =
      [⟨1, 5, "t", "p", .pending, 0, 3, none, 5, 5, none⟩] := by
  refine ⟨by decide, rfl, ?_, rfl⟩
  intro h
  have h1 : createTask ⟨5, "t", "p", 0⟩ 5 1 =
      .ok ⟨1, 5, "t", "p", .pending, 0, 3, none, 5, 5, none⟩ := rfl
  rw [h1] at h
  exact Except.noConfusion h

/-- Claim C7, witness: concrete instances — an `execute_at` in the past is
rejected without touching the table, and an accepted request with
`max_attempts = 0` defaults to 3. -/
theorem c7_create_witness :
    createTaskDB [] ⟨3, "t", "p", 0⟩ 5 1 = ([], .error .invalidExecuteTime) ∧
    createTask ⟨9, "t", "p", 0⟩ 5 1 =
      .ok ⟨1, 9, "t", "p", .pending, 0, 3, none, 5, 5, none⟩ := by
  constructor
  · exact ((c7_create [] ⟨3, "t", "p", 0⟩ 5 1).1 (by decide)).2
  · have h := ((c7_create [] ⟨9, "t", "p", 0⟩ 5 1).2 (by decide)).1
    simpa using h

/-! ## Claims C8, C10 — cancel -/

/-- Claim C8: `CancelTask` cancels a task exactly when a row with that id is
currently `pending` or `processing`, returning the updated row; otherwise
(absent id or any other status) it returns not-found and leaves the table
unchanged; and a second cancel of the same id always returns not-found. -/
theorem c8_cancel (db : List Task) (id now : Int) :
    ((∃ t ∈ db, cancellable id t) →
       ∃ t0, db.find? (fun t => decide (cancellable id t)) = some t0 ∧
         cancelTask db id now =
           (db.map fun u => if cancellable id u then cancelUpdate u now else u,
            .ok (cancelUpdate t0 now)) ∧
         (cancelUpdate t0 now).status = .cancelled) ∧
    ((∀ t ∈ db, ¬ cancellable id t) →
       cancelTask db id now = (db, .error .taskNotFound)) ∧
    cancelTask (cancelTask db id now).1 id now =
      ((cancelTask db id now).1, .error .taskNotFound) := by
  refine ⟨fun hex => ?_, fun hnone => ?_, ?_⟩
  · have hsome : (db.find? (fun t => decide (cancellable id t))).isSome := by
      rw [List.find?_isSome]
      obtain ⟨t, ht, hc⟩ := hex
      exact ⟨t, ht, decide_eq_true hc⟩
    obtain ⟨t0, h0⟩ := Option.isSome_iff_exists.mp hsome
    refine ⟨t0, h0, ?_, rfl⟩
    unfold cancelTask
    rw [h0]
  · have h0 : db.find? (fun t => decide (cancellable id t)) = none := by
      rw [List.find?_eq_none]
      intro t ht
      simpa using hnone t ht
    unfold cancelTask
    rw [h0]
  · rcases h0 : db.find? (fun t => decide (cancellable id t)) with _ | t0
    · have hfst : (cancelTask db id now).1 = db := by
        unfold cancelTask
        rw [h0]
      rw [hfst]
      unfold cancelTask
      rw [h0]
    · have hfst : (cancelTask db id now).1 =
          db.map fun u => if cancellable id u then cancelUpdate u now else u := by
        unfold cancelTask
        rw [h0]
      rw [hfst]
      have hnone2 : (db.map fun u =>
          if cancellable id u then cancelUpdate u now else u).find?
            (fun t => decide (cancellable id t)) = none := by
        rw [List.find?_eq_none]
        intro v hv
        obtain ⟨u, hu, rfl⟩ := List.mem_map.mp hv
        by_cases hc : cancellable id u
        · rw [if_pos hc]
          simp [cancellable, cancelUpdate]
        · rw [if_neg hc]
          simpa using hc
      unfold cancelTask
      rw [hnone2]

/-- A pending row used by the cancel witnesses. -/
def samplePending : Task :=
  ⟨2, 10, "email", "p", .pending, 0, 3, none, 0, 0, none⟩

/-- Claim C8, witness: cancelling a concrete pending row succeeds with the
`cancelled` row, and cancelling again returns not-found. -/
theorem c8_cancel_witness :
    cancelTask [samplePending] 2 5 =
      ([cancelUpdate samplePending 5], .ok (cancelUpdate samplePending 5)) ∧
    cancelTask (cancelTask [samplePending] 2 5).1 2 5 =
      ((cancelTask [samplePending] 2 5).1, .error .taskNotFound) := by
  refine ⟨?_, (c8_cancel [samplePending] 2 5).2.2⟩
  obtain ⟨t0, h0, heq, -⟩ := (c8_cancel [samplePending] 2 5).1
    ⟨samplePending, by decide, by decide⟩
  have ht0 : t0 = samplePending := by
    have := h0
    rw [show [samplePending].find? (fun t => decide (cancellable 2 t)) =
      some samplePending from by decide] at this
    exact (Option.some_inj.mp this).symm
  rw [ht0] at heq
  rw [heq]
  simp only [List.map_cons, List.map_nil]
  rw [if_pos (show cancellable 2 samplePending by decide)]

/-- Claim C10: a successful cancel changes only `status` (to `cancelled`)
and the trigger-maintained `updated_at`; every other column — id,
execute_at, task_type, payload, attempts, max_attempts, error_message,
created_at, completed_at — is returned unchanged, and `completed_at` stays
null for a never-settled row. -/
theorem c10_cancel_frame (db : List Task) (id now : Int) (t0 : Task) :
    (db.find? (fun t => decide (cancellable id t)) = some t0 →
       (cancelTask db id now).2 = .ok (cancelUpdate t0 now)) ∧
    (∀ u : Task,
       (cancelUpdate u now).status = .cancelled ∧
       (cancelUpdate u now).updated_at = now ∧
       (cancelUpdate u now).id = u.id ∧
       (cancelUpdate u now).execute_at = u.execute_at ∧
       (cancelUpdate u now).task_type = u.task_type ∧
       (cancelUpdate u now).payload = u.payload ∧
       (cancelUpdate u now).attempts = u.attempts ∧
       (cancelUpdate u now).max_attempts = u.max_attempts ∧
       (cancelUpdate u now).error_message = u.error_message ∧
       (cancelUpdate u now).created_at = u.created_at ∧
       (cancelUpdate u now).completed_at = u.completed_at) ∧
    (∀ u : Task, u.completed_at = none → (cancelUpdate u now).completed_at = none) := by
  refine ⟨fun h0 => ?_, fun u => ⟨rfl, rfl, rfl, rfl, rfl, rfl, rfl, rfl, rfl, rfl, rfl⟩,
          fun u hu => by rw [show (cancelUpdate u now).completed_at = u.completed_at
            from rfl, hu]⟩
  unfold cancelTask
  rw [h0]

/-- Claim C10, witness: cancelling the concrete pending row keeps every
column but `status`/`updated_at`; in particular `completed_at` stays null. -/
theorem c10_cancel_frame_witness :
    (cancelTask [samplePending] 2 5).2 = .ok (cancelUpdate samplePending 5) ∧
    (cancelUpdate samplePending 5).execute_at = samplePending.execute_at ∧
    (cancelUpdate samplePending 5).completed_at = none := by
  refine ⟨(c10_cancel_frame [samplePending] 2 5 samplePending).1 (by decide),
          ((c10_cancel_frame [samplePending] 2 5 samplePending).2.1 samplePending).2.2.2.1,
          (c10_cancel_frame [samplePending] 2 5 samplePending).2.2 samplePending rfl⟩

/-! ## Claims C2, C6 — lifecycle under interleaving -/

/-- Inductive invariant of the per-task transition system: the retry budget
is fixed; attempts are nonnegative; every outstanding lease or decided
settlement write is accounted for by one past attempt increment
(`retryWrites + failWrites + held <= attempts`); and once
`attempts >= max_attempts`, the potential
`attempts + retryWrites + pendingBit status` never exceeds
`2 * max_attempts + 1`. -/
theorem reach_invariant (ma : Int) (s : WState) (hma : 0 ≤ ma)
    (h : ReachableFrom ma s) :
    s.maxAttempts = ma ∧ 0 ≤ s.attempts ∧
    (s.retryWrites : Int) + (s.failWrites : Int) + (s.held : Int) ≤ s.attempts ∧
    (ma ≤ s.attempts →
      s.attempts + (s.retryWrites : Int) + pendingBit s.status ≤ 2 * ma + 1) := by
  induction h with
  | refl =>
    refine ⟨rfl, le_refl 0, by dsimp [initState]; omega, ?_⟩
    intro hge
    dsimp [initState, pendingBit] at hge ⊢
    omega
  | tail hab hbc ih =>
    rename_i b c
    obtain ⟨h1, h2, h3, h4⟩ := ih
    cases hbc with
    | lease hp =>
      refine ⟨h1, by dsimp; omega, by dsimp; push_cast; omega, ?_⟩
      intro hge
      rw [hp] at h4
      dsimp [pendingBit] at h4 hge ⊢
      by_cases hc : ma ≤ b.attempts
      · have hk := h4 hc
        omega
      · omega
    | settleSuccess hh =>
      refine ⟨h1, h2, by dsimp; omega, ?_⟩
      intro hge
      dsimp at hge
      have hk := h4 hge
      have hb := pendingBit_bounds b.status
      dsimp [pendingBit]
      omega
    | settleReadRetry hh hlt =>
      refine ⟨h1, h2, by dsimp; push_cast; omega, ?_⟩
      intro hge
      dsimp at hge ⊢
      omega
    | settleReadFail hh hge2 =>
      refine ⟨h1, h2, by dsimp; push_cast; omega, ?_⟩
      intro hge
      dsimp at hge ⊢
      exact h4 hge
    | applyRetry hr =>
      refine ⟨h1, h2, by dsimp; omega, ?_⟩
      intro hge
      dsimp at hge
      have hk := h4 hge
      have hb := pendingBit_bounds b.status
      dsimp [pendingBit]
      omega
    | applyFail hf =>
      refine ⟨h1, h2, by dsimp; omega, ?_⟩
      intro hge
      dsimp at hge
      have hk := h4 hge
      have hb := pendingBit_bounds b.status
      dsimp [pendingBit]
      omega
    | sweepRestore hp hlt =>
      refine ⟨h1, by dsimp; omega, by dsimp; omega, ?_⟩
      intro hge
      dsimp [pendingBit] at hge ⊢
      omega
    | sweepFail hp hge2 =>
      refine ⟨h1, h2, by dsimp; omega, ?_⟩
      intro hge
      dsimp at hge
      have hk := h4 hge
      have hb := pendingBit_bounds b.status
      dsimp [pendingBit]
      omega
    | cancel hp =>
      refine ⟨h1, h2, by dsimp; omega, ?_⟩
      intro hge
      dsimp at hge
      have hk := h4 hge
      have hb := pendingBit_bounds b.status
      dsimp [pendingBit]
      omega
    | crash hh =>
      refine ⟨h1, h2, by dsimp; omega, ?_⟩
      intro hge
      dsimp at hge ⊢
      exact h4 hge
    | crashRetry hr =>
      refine ⟨h1, h2, by dsimp; omega, ?_⟩
      intro hge
      dsimp at hge
      have hk := h4 hge
      dsimp
      omega
    | crashFail hf =>
      refine ⟨h1, h2, by dsimp; omega, ?_⟩
      intro hge
      dsimp at hge ⊢
      exact h4 hge

/-- Claim C2 (amended): under any interleaving of lease, the two-statement
failure settlement, success settlement, sweep, cancel and worker crash,
every reachable terminal state satisfies
`attempts <= 2 * max_attempts + 1` — the budget itself can be overrun both
by the sweeper's re-increment and by a stale retry settlement whose
unguarded UPDATE lands after further leases; and a task observed with
`attempts >= max_attempts` is never freshly decided for retry (the
settlement SELECT then decides failed) nor sweeper-restored: such a
`processing` row returns to `pending` only when an earlier-decided stale
retry UPDATE lands. -/
theorem c2_attempts_bound (ma : Int) (s s' : WState) :
    (0 ≤ ma → ReachableFrom ma s → isTerminal s.status →
       s.attempts ≤ 2 * ma + 1) ∧
    (Step s s' → s.maxAttempts ≤ s.attempts →
       s'.retryWrites ≤ s.retryWrites) ∧
    (Step s s' → s.status = .processing → s.maxAttempts ≤ s.attempts →
       s'.status = .pending → 1 ≤ s.retryWrites) := by
  refine ⟨fun hma hreach _ => ?_, fun hstep hge => ?_,
          fun hstep hproc hge hpend => ?_⟩
  · obtain ⟨h1, h2, h3, h4⟩ := reach_invariant ma s hma hreach
    by_cases hc : ma ≤ s.attempts
    · have hk := h4 hc
      have hb := pendingBit_bounds s.status
      omega
    · omega
  · cases hstep <;> dsimp <;> omega
  · cases hstep with
    | lease hp => exact Status.noConfusion (hproc.symm.trans hp)
    | settleSuccess hh => dsimp at hpend; exact Status.noConfusion hpend
    | settleReadRetry hh hlt =>
      dsimp at hpend; exact Status.noConfusion (hproc.symm.trans hpend)
    | settleReadFail hh hge2 =>
      dsimp at hpend; exact Status.noConfusion (hproc.symm.trans hpend)
    | applyRetry hr => exact hr
    | applyFail hf => dsimp at hpend; exact Status.noConfusion hpend
    | sweepRestore hp hlt => omega
    | sweepFail hp hge2 => dsimp at hpend; exact Status.noConfusion hpend
    | cancel hp => dsimp at hpend; exact Status.noConfusion hpend
    | crash hh =>
      dsimp at hpend; exact Status.noConfusion (hproc.symm.trans hpend)
    | crashRetry hr =>
      dsimp at hpend; exact Status.noConfusion (hproc.symm.trans hpend)
    | crashFail hf =>
      dsimp at hpend; exact Status.noConfusion (hproc.symm.trans hpend)

/-- Claim C2, witness: the bound holds at a concrete reachable terminal
state (budget 1, trace lease → settlement read → failed write), and the
re-pend guard of the amended claim fires at a concrete stale retry write on
an exhausted row. -/
theorem c2_attempts_bound_witness :
    (⟨.failed, 1, 1, 0, 0, 0⟩ : WState).attempts ≤ 2 * 1 + 1 ∧
    1 ≤ (⟨.processing, 3, 2, 0, 1, 0⟩ : WState).retryWrites := by
  constructor
  · have h1 : Step (initState 1) ⟨.processing, 1, 1, 1, 0, 0⟩ := Step.lease _ rfl
    have h2 : Step ⟨.processing, 1, 1, 1, 0, 0⟩ ⟨.processing, 1, 1, 0, 0, 1⟩ :=
      Step.settleReadFail _ (by decide) (by decide)
    have h3 : Step ⟨.processing, 1, 1, 0, 0, 1⟩ ⟨.failed, 1, 1, 0, 0, 0⟩ :=
      Step.applyFail _ (by decide)
    exact (c2_attempts_bound 1 ⟨.failed, 1, 1, 0, 0, 0⟩ ⟨.failed, 1, 1, 0, 0, 0⟩).1
      (by decide) (.tail (.tail (.tail .refl h1) h2) h3) (Or.inr (Or.inl rfl))
  · exact (c2_attempts_bound 2 ⟨.processing, 3, 2, 0, 1, 0⟩
      ⟨.pending, 3, 2, 0, 0, 0⟩).2.2 (Step.applyRetry _ (by decide)) rfl
      (by decide) rfl

/-- Claim C2, counterexample to the claim as stated: with `max_attempts = 2`
the trace lease, crash, sweeper restore (re-increment), lease, settlement
read (failed), failed write reaches the terminal state `failed` with
`attempts = 3 > max_attempts`; and the longer race lease, settlement read
(retry decided but not yet written), sweeper restore, lease, settlement
read (failed), failed write, stale retry write lands re-pending the
exhausted row, lease, settlement read (failed), failed write reaches
`failed` with `attempts = 4 = max_attempts + 2`, also re-pending a
`processing` row whose `attempts >= max_attempts` on the way. -/
theorem c2_counterexample :
    ReachableFrom 2 ⟨.failed, 3, 2, 0, 0, 0⟩ ∧
    isTerminal (⟨.failed, 3, 2, 0, 0, 0⟩ : WState).status ∧
    ¬ (⟨.failed, 3, 2, 0, 0, 0⟩ : WState).attempts ≤
        (⟨.failed, 3, 2, 0, 0, 0⟩ : WState).maxAttempts ∧
    ReachableFrom 2 ⟨.failed, 4, 2, 0, 0, 0⟩ ∧
    ¬ (⟨.failed, 4, 2, 0, 0, 0⟩ : WState).attempts ≤
        (⟨.failed, 4, 2, 0, 0, 0⟩ : WState).maxAttempts + 1 ∧
    Step ⟨.processing, 3, 2, 0, 1, 0⟩ ⟨.pending, 3, 2, 0, 0, 0⟩ ∧
    (⟨.processing, 3, 2, 0, 1, 0⟩ : WState).maxAttempts ≤
      (⟨.processing, 3, 2, 0, 1, 0⟩ : WState).attempts := by
  have a1 : Step (initState 2) ⟨.processing, 1, 2, 1, 0, 0⟩ := Step.lease _ rfl
  have a2 : Step ⟨.processing, 1, 2, 1, 0, 0⟩ ⟨.processing, 1, 2, 0, 0, 0⟩ :=
    Step.crash _ (by decide)
  have a3 : Step ⟨.processing, 1, 2, 0, 0, 0⟩ ⟨.pending, 2, 2, 0, 0, 0⟩ :=
    Step.sweepRestore _ rfl (by decide)
  have a4 : Step ⟨.pending, 2, 2, 0, 0, 0⟩ ⟨.processing, 3, 2, 1, 0, 0⟩ :=
    Step.lease _ rfl
  have a5 : Step ⟨.processing, 3, 2, 1, 0, 0⟩ ⟨.processing, 3, 2, 0, 0, 1⟩ :=
    Step.settleReadFail _ (by decide) (by decide)
  have a6 : Step ⟨.processing, 3, 2, 0, 0, 1⟩ ⟨.failed, 3, 2, 0, 0, 0⟩ :=
    Step.applyFail _ (by decide)
  have b2 : Step ⟨.processing, 1, 2, 1, 0, 0⟩ ⟨.processing, 1, 2, 0, 1, 0⟩ :=
    Step.settleReadRetry _ (by decide) (by decide)
  have b3 : Step ⟨.processing, 1, 2, 0, 1, 0⟩ ⟨.pending, 2, 2, 0, 1, 0⟩ :=
    Step.sweepRestore _ rfl (by decide)
  have b4 : Step ⟨.pending, 2, 2, 0, 1, 0⟩ ⟨.processing, 3, 2, 1, 1, 0⟩ :=
    Step.lease _ rfl
  have b5 : Step ⟨.processing, 3, 2, 1, 1, 0⟩ ⟨.processing, 3, 2, 0, 1, 1⟩ :=
    Step.settleReadFail _ (by decide) (by decide)
  have b6 : Step ⟨.processing, 3, 2, 0, 1, 1⟩ ⟨.failed, 3, 2, 0, 1, 0⟩ :=
    Step.applyFail _ (by decide)
  have b7 : Step ⟨.failed, 3, 2, 0, 1, 0⟩ ⟨.pending, 3, 2, 0, 0, 0⟩ :=
    Step.applyRetry _ (by decide)
  have b8 : Step ⟨.pending, 3, 2, 0, 0, 0⟩ ⟨.processing, 4, 2, 1, 0, 0⟩ :=
    Step.lease _ rfl
  have b9 : Step ⟨.processing, 4, 2, 1, 0, 0⟩ ⟨.processing, 4, 2, 0, 0, 1⟩ :=
    Step.settleReadFail _ (by decide) (by decide)
  have b10 : Step ⟨.processing, 4, 2, 0, 0, 1⟩ ⟨.failed, 4, 2, 0, 0, 0⟩ :=
    Step.applyFail _ (by decide)
  refine ⟨.tail (.tail (.tail (.tail (.tail (.tail .refl a1) a2) a3) a4) a5) a6,
          Or.inr (Or.inl rfl), by decide, ?_, by decide,
          Step.applyRetry _ (by decide), by decide⟩
  exact .tail (.tail (.tail (.tail (.tail (.tail (.tail (.tail (.tail
    (.tail .refl a1) b2) b3) b4) b5) b6) b7) b8) b9) b10

/-- Claim C6 (amended): the terminal statuses completed, failed and
cancelled are absorbing with respect to lease, sweeper passes and cancel;
the only operations that can leave them are the settlement writes of a
worker still holding an earlier lease on the task — either a lease whose
settlement has not begun, or a decided settlement UPDATE not yet landed,
all unguarded by status — so a task with no such outstanding worker
activity never leaves a terminal status. -/
theorem c6_terminal_absorbing (s s' : WState) :
    (isTerminal s.status → s.held = 0 → s.retryWrites = 0 → s.failWrites = 0 →
       ¬ Step s s') ∧
    (Step s s' → isTerminal s.status →
       1 ≤ s.held + s.retryWrites + s.failWrites) := by
  have hterm_ne : ∀ st : Status, isTerminal st → st ≠ .pending ∧ st ≠ .processing := by
    intro st h
    rcases h with h | h | h <;> rw [h] <;>
      exact ⟨fun h2 => Status.noConfusion h2, fun h2 => Status.noConfusion h2⟩
  constructor
  · intro hterm hh hr hf hstep
    cases hstep with
    | lease hp => exact absurd hp (hterm_ne _ hterm).1
    | settleSuccess h => omega
    | settleReadRetry h hlt => omega
    | settleReadFail h hge => omega
    | applyRetry h => omega
    | applyFail h => omega
    | sweepRestore hp hlt => exact absurd hp (hterm_ne _ hterm).2
    | sweepFail hp hge => exact absurd hp (hterm_ne _ hterm).2
    | cancel hp =>
      rcases hp with hp | hp
      · exact absurd hp (hterm_ne _ hterm).1
      · exact absurd hp (hterm_ne _ hterm).2
    | crash h => omega
    | crashRetry h => omega
    | crashFail h => omega
  · intro hstep hterm
    cases hstep with
    | lease hp => exact absurd hp (hterm_ne _ hterm).1
    | settleSuccess h => omega
    | settleReadRetry h hlt => omega
    | settleReadFail h hge => omega
    | applyRetry h => omega
    | applyFail h => omega
    | sweepRestore hp hlt => exact absurd hp (hterm_ne _ hterm).2
    | sweepFail hp hge => exact absurd hp (hterm_ne _ hterm).2
    | cancel hp =>
      rcases hp with hp | hp
      · exact absurd hp (hterm_ne _ hterm).1
      · exact absurd hp (hterm_ne _ hterm).2
    | crash h => omega
    | crashRetry h => omega
    | crashFail h => omega

/-- Claim C6, witness: a completed task with no outstanding lease and no
pending settlement write admits no transition at all — in particular it
cannot leave `completed`. -/
theorem c6_terminal_absorbing_witness :
    ¬ Step ⟨.completed, 1, 3, 0, 0, 0⟩ ⟨.pending, 1, 3, 0, 0, 0⟩ :=
  (c6_terminal_absorbing ⟨.completed, 1, 3, 0, 0, 0⟩ ⟨.pending, 1, 3, 0, 0, 0⟩).1
    (Or.inl rfl) rfl rfl rfl

/-- Claim C6, counterexample to the claim as stated: cancel a task while it
is being processed, then let the worker settle the same task — the
reachable terminal state `cancelled` steps to `completed`, so `cancelled`
is not absorbing under the cancel-then-settle interleaving. -/
theorem c6_counterexample :
    ReachableFrom 3 ⟨.cancelled, 1, 3, 1, 0, 0⟩ ∧
    isTerminal (⟨.cancelled, 1, 3, 1, 0, 0⟩ : WState).status ∧
    Step ⟨.cancelled, 1, 3, 1, 0, 0⟩ ⟨.completed, 1, 3, 0, 0, 0⟩ ∧
    (⟨.completed, 1, 3, 0, 0, 0⟩ : WState).status ≠
      (⟨.cancelled, 1, 3, 1, 0, 0⟩ : WState).status := by
  have h1 : Step (initState 3) ⟨.processing, 1, 3, 1, 0, 0⟩ := Step.lease _ rfl
  have h2 : Step ⟨.processing, 1, 3, 1, 0, 0⟩ ⟨.cancelled, 1, 3, 1, 0, 0⟩ :=
    Step.cancel _ (Or.inr rfl)
  refine ⟨.tail (.tail .refl h1) h2, Or.inr (Or.inr rfl),
          Step.settleSuccess _ (by decide), by decide⟩
